import Mathlib

/-!
Verification of the pivot-calibration module
(`sksurgerycalibration/algorithms/pivot.py`).

The module is embedded shallowly:

* numpy arrays become `NDArray`: a shape list together with a total
  row-major flat data function over exact rationals (`ℚ` stands in for
  float64; the claims under study concern control flow and exact
  algebraic structure, not rounding).
* `np.linalg.svd` and `random.sample` are external library calls; they
  are modelled as oracle parameters (`svdOf : NDArray → SVD` giving the
  factor data for a matrix, and `draws : ℕ → List ℕ` giving the sampled
  index list of each RANSAC iteration).  `random.sample(range(n), 3)`
  raises when `3 > n`; that error is modelled by the dedicated
  `CalibError.sampleTooLarge` constructor, checked before the draw is
  used, exactly as the library call would raise before any fitting.
* Python exceptions become an error inductive `CalibError` with one
  constructor per distinct `raise` site (plus `indexErr` for the
  `IndexError` that `shape[1]`/`shape[2]` raises on low-rank arrays and
  `typeErr` for the `isinstance` `TypeError`, which the typed embedding
  cannot itself trigger).  `except ValueError` catches exactly the
  constructors with `isValueError = true`.
* `np.sqrt` on the residual becomes `Real.sqrt`, the single
  noncomputable point of the embedding; every branch decision is on
  rationals and remains kernel-evaluable.
-/

namespace PivotCalib

/-- A numpy `ndarray` of rationals: its shape and its row-major flat
data, total on `ℕ` (well-shaped code only reads in-range offsets). -/
structure NDArray where
  shape : List ℕ
  data : ℕ → ℚ

/-- Number of scalar entries per index of axis 0, i.e. the product of
the trailing dimensions. -/
def NDArray.rowSize (a : NDArray) : ℕ := a.shape.tail.prod

/-- Element `a[i, j, k]` of a rank-3 array (row-major strides). -/
def NDArray.at3 (a : NDArray) (i j k : ℕ) : ℚ :=
  a.data (i * a.shape.tail.prod + j * a.shape.tail.tail.prod + k)

/-- Element `a[r, c]` of a rank-2 array. -/
def NDArray.at2 (a : NDArray) (r c : ℕ) : ℚ :=
  a.data (r * a.shape.tail.prod + c)

/-- Fancy indexing `a[indexes]` along axis 0: rows listed by `idx` are
copied in order (out-of-range list positions read index 0; the source
only passes valid index lists, which theorems hypothesise). -/
def NDArray.select (a : NDArray) (idx : List ℕ) : NDArray :=
  ⟨idx.length :: a.shape.tail,
   fun m => a.data (idx.getD (m / a.rowSize) 0 * a.rowSize + m % a.rowSize)⟩

/-- Reshape of a contiguous array: the flat data is unchanged, only the
shape label changes (the source only reshapes to size-preserving
shapes). -/
def NDArray.reshape (a : NDArray) (sh : List ℕ) : NDArray := ⟨sh, a.data⟩

/-- The slice `a[:, 0:3, 0:3]` of a rank-3 array: shape `(n, 3, 3)`,
with entry `(i, j, k)` equal to `a[i, j, k]`, flattened row-major. -/
def NDArray.sliceRot (a : NDArray) : NDArray :=
  ⟨[a.shape.headD 0, 3, 3],
   fun m => a.at3 (m / 9) (m / 3 % 3) (m % 3)⟩

/-- The slice `a[:, 0:3, 3]` of a rank-3 array: shape `(n, 3)`, with
entry `(i, j)` equal to `a[i, j, 3]`, flattened row-major. -/
def NDArray.sliceTrans (a : NDArray) : NDArray :=
  ⟨[a.shape.headD 0, 3],
   fun m => a.at3 (m / 3) (m % 3) 3⟩

/-- Multiplication of an array by a scalar, elementwise. -/
def NDArray.scale (a : NDArray) (c : ℚ) : NDArray :=
  ⟨a.shape, fun m => a.data m * c⟩

/-- `np.repeat(a, n, 0)` for an array whose axis 0 has extent 1: the
single block of `a` is copied `n` times along axis 0. -/
def NDArray.repeatAx0 (a : NDArray) (n : ℕ) : NDArray :=
  ⟨n :: a.shape.tail, fun m => a.data (m % a.rowSize)⟩

/-- `np.concatenate((x, y), axis=1)` for two rank-2 arrays with the
same number of rows. -/
def NDArray.concatAx1 (x y : NDArray) : NDArray :=
  ⟨[x.shape.headD 0, x.shape.getD 1 0 + y.shape.getD 1 0],
   fun m =>
     let cols := x.shape.getD 1 0 + y.shape.getD 1 0
     if m % cols < x.shape.getD 1 0 then
       x.data (m / cols * x.shape.getD 1 0 + m % cols)
     else
       y.data (m / cols * y.shape.getD 1 0 + (m % cols - x.shape.getD 1 0))⟩

/-- `np.eye(3) * -1.0`, a rank-2 array. -/
def eyeNeg : NDArray :=
  ⟨[3, 3], fun m => if m / 3 % 3 = m % 3 then -1 else 0⟩

/-- Output of `np.linalg.svd(A, full_matrices=False)` for a matrix with
`min(rows, cols)` =: `K`: `u` is `rows × K`, `s` the `K` singular
values, `vh` is `K × cols`.  The factorisation itself is an external
library computation, so it enters the embedding as oracle data. -/
structure SVD where
  u : ℕ → ℕ → ℚ
  s : List ℚ
  vh : ℕ → ℕ → ℚ

/-- One error value per distinct raise site of `pivot.py`, plus the two
non-`ValueError` exceptions reachable from it. -/
inductive CalibError where
  | typeErr
  | indexErr
  | shapeRows
  | shapeCols
  | configMethod (method : String)
  | configIterations
  | configErrorThreshold
  | configConsensus
  | degenerate
  | noConsensus
  | sampleTooLarge
  deriving DecidableEq

/-- Which errors a Python `except ValueError` around a solve call
catches: everything except `TypeError` and `IndexError`. -/
def CalibError.isValueError : CalibError → Bool
  | .typeErr => false
  | .indexErr => false
  | _ => true

/-- The triple returned by a successful solve: `x[0:3]`, `x[3:6]` and
the RMS residual. -/
structure CalibrationResult where
  pointer_offset : ℕ → ℚ
  pivot_location : ℕ → ℚ
  residual_error : ℝ

/-- `Except.isOk` specialised: whether a solve returned a result. -/
def solveOk {α : Type} (e : Except CalibError α) : Bool :=
  match e with
  | .ok _ => true
  | .error _ => false

/-- `replace_small_values(the_list, threshold, replacement_value)`:
each value below `threshold` is replaced by `replacement_value` and not
counted; other values are kept and counted.  The source mutates the
list in place and returns the count; the embedding returns the updated
list together with the count. -/
def replace_small_values (the_list : List ℚ) (threshold replacement_value : ℚ) :
    List ℚ × ℕ :=
  match the_list with
  | [] => ([], 0)
  | item :: rest =>
    let tailResult := replace_small_values rest threshold replacement_value
    if item < threshold then (replacement_value :: tailResult.1, tailResult.2)
    else (item :: tailResult.1, tailResult.2 + 1)

/-- `a_values`: `A = concat(rotations reshaped to (3N,3), -I repeated, axis=1)`,
mirroring lines 81–87 of the source. -/
def a_values (tracking_matrices : NDArray) : NDArray :=
  let number_of_matrices := tracking_matrices.shape.headD 0
  let a_first := tracking_matrices.sliceRot.reshape [3 * number_of_matrices, 3]
  let a_second :=
    ((eyeNeg.reshape [1, 3, 3]).repeatAx0 number_of_matrices).reshape
      [3 * number_of_matrices, 3]
  a_first.concatAx1 a_second

/-- `b_values`: the translations times `-1`, reshaped to a `(3N, 1)`
column, mirroring lines 90–91 of the source. -/
def b_values (tracking_matrices : NDArray) : NDArray :=
  let number_of_matrices := tracking_matrices.shape.headD 0
  (tracking_matrices.sliceTrans.scale (-1)).reshape [3 * number_of_matrices, 1]

/-- `x = vᵀ · diag(1/s) · (uᵀ b)` of lines 96–98: component `j` of the
solution, contracting `uᵀ b` over the `rows` rows of `b`.  Division of
`1` by a singular value is exact rational division (`1/0 = 0` in `ℚ`;
numpy emits `inf` there, but no claim observes that branch because a
rank check failure precedes every return). -/
def xSolve (svd : SVD) (b : NDArray) (rows : ℕ) : ℕ → ℚ :=
  fun j =>
    ∑ k ∈ Finset.range svd.s.length,
      svd.vh k j *
        (1 / svd.s.getD k 0 * ∑ r ∈ Finset.range rows, svd.u r k * b.at2 r 0)

/-- The solution vector of the AOS solve: `x = vᵀ diag(1/s) uᵀ b`
for the SVD of `A` built from the pose array. -/
def aosX (tracking_matrices : NDArray) (svdOf : NDArray → SVD) : ℕ → ℚ :=
  xSolve (svdOf (a_values tracking_matrices)) (b_values tracking_matrices)
    (3 * tracking_matrices.shape.headD 0)

/-- Lines 109–111: the mean of the squared components of `A·x − b`,
the quantity whose square root is the returned residual. -/
def aosResidualSq (tracking_matrices : NDArray) (svdOf : NDArray → SVD) : ℚ :=
  let number_of_matrices := tracking_matrices.shape.headD 0
  let a_vals := a_values tracking_matrices
  let b_vals := b_values tracking_matrices
  let x_values := aosX tracking_matrices svdOf
  let residual_matrix : ℕ → ℚ := fun r =>
    (∑ c ∈ Finset.range (a_vals.shape.getD 1 0), a_vals.at2 r c * x_values c) -
      b_vals.at2 r 0
  (∑ r ∈ Finset.range (3 * number_of_matrices),
      residual_matrix r * residual_matrix r) /
    ((number_of_matrices * 3 : ℕ) : ℚ)

/-- The result a successful AOS solve returns: the slices `x[0:3]` and
`x[3:6]` of the solution, and the root of the mean squared residual. -/
noncomputable def aosModel (tracking_matrices : NDArray)
    (svdOf : NDArray → SVD) : CalibrationResult :=
  ⟨fun j => aosX tracking_matrices svdOf j,
   fun j => aosX tracking_matrices svdOf (3 + j),
   Real.sqrt ((aosResidualSq tracking_matrices svdOf : ℚ) : ℝ)⟩

/-- `pivot_calibration_aos(tracking_matrices)` (lines 64–114): build
`A` and `b`, solve through the SVD oracle (`aosX`), raise on rank < 6,
else return offset, pivot location and RMS residual (`aosModel`). -/
noncomputable def pivot_calibration_aos (tracking_matrices : NDArray)
    (svdOf : NDArray → SVD) : Except CalibError CalibrationResult :=
  let svd := svdOf (a_values tracking_matrices)
  let rank := (replace_small_values svd.s (1 / 100) 0).2
  if rank < 6 then .error .degenerate
  else .ok (aosModel tracking_matrices svdOf)

/-- Second definition for the refinement claim C2, following the
spec's words rather than the source's operation order: the reciprocal
of a singular value is formed only after values below the `0.01`
threshold have been zeroed, a zeroed value contributing `0` to the
solution. -/
def xSolveFiltered (svd : SVD) (b : NDArray) (rows : ℕ) : ℕ → ℚ :=
  fun j =>
    ∑ k ∈ Finset.range svd.s.length,
      svd.vh k j *
        ((if svd.s.getD k 0 < 1 / 100 then 0 else 1 / svd.s.getD k 0) *
          ∑ r ∈ Finset.range rows, svd.u r k * b.at2 r 0)

/-- The spec-ordered solution vector. -/
def aosXFiltered (tracking_matrices : NDArray) (svdOf : NDArray → SVD) : ℕ → ℚ :=
  xSolveFiltered (svdOf (a_values tracking_matrices)) (b_values tracking_matrices)
    (3 * tracking_matrices.shape.headD 0)

/-- The mean squared residual computed from the spec-ordered solution. -/
def aosResidualSqFiltered (tracking_matrices : NDArray)
    (svdOf : NDArray → SVD) : ℚ :=
  let number_of_matrices := tracking_matrices.shape.headD 0
  let a_vals := a_values tracking_matrices
  let b_vals := b_values tracking_matrices
  let x_values := aosXFiltered tracking_matrices svdOf
  let residual_matrix : ℕ → ℚ := fun r =>
    (∑ c ∈ Finset.range (a_vals.shape.getD 1 0), a_vals.at2 r c * x_values c) -
      b_vals.at2 r 0
  (∑ r ∈ Finset.range (3 * number_of_matrices),
      residual_matrix r * residual_matrix r) /
    ((number_of_matrices * 3 : ℕ) : ℚ)

/-- The result of a successful spec-ordered solve. -/
noncomputable def aosModelFiltered (tracking_matrices : NDArray)
    (svdOf : NDArray → SVD) : CalibrationResult :=
  ⟨fun j => aosXFiltered tracking_matrices svdOf j,
   fun j => aosXFiltered tracking_matrices svdOf (3 + j),
   Real.sqrt ((aosResidualSqFiltered tracking_matrices svdOf : ℚ) : ℝ)⟩

/-- The AOS solver with the spec-ordered (filtered-then-inverted)
pseudo-inverse; identical to `pivot_calibration_aos` otherwise. -/
noncomputable def pivot_calibration_aos_filtered (tracking_matrices : NDArray)
    (svdOf : NDArray → SVD) : Except CalibError CalibrationResult :=
  let svd := svdOf (a_values tracking_matrices)
  let rank := (replace_small_values svd.s (1 / 100) 0).2
  if rank < 6 then .error .degenerate
  else .ok (aosModelFiltered tracking_matrices svdOf)

/-- `pivot_calibration(matrices)` with the default `None`
configuration: the structural checks of lines 29–33 (`shape[1]`
raises `IndexError` when absent, `ValueError` when not 4, then
likewise `shape[2]`) followed by the AOS solve.  This is the exact
path the dispatcher takes with no configuration, split out because
RANSAC calls it on every sample and on the in-lier refit. -/
noncomputable def pivot_calibration_core (tracking_matrices : NDArray)
    (svdOf : NDArray → SVD) : Except CalibError CalibrationResult :=
  match tracking_matrices.shape[1]? with
  | none => .error .indexErr
  | some d1 =>
    if d1 ≠ 4 then .error .shapeRows
    else
      match tracking_matrices.shape[2]? with
      | none => .error .indexErr
      | some d2 =>
        if d2 ≠ 4 then .error .shapeCols
        else pivot_calibration_aos tracking_matrices svdOf

/-- Euclidean distance squared used by the RANSAC scoring loop (lines
187–190): the pose applied to the homogenised candidate offset,
subtracted from the candidate pivot location, summed over the three
coordinates. -/
def poseDistSq (tracking_matrices : NDArray) (matrix_counter : ℕ)
    (model : CalibrationResult) : ℚ :=
  ∑ j ∈ Finset.range 3,
    (model.pivot_location j -
        ∑ k ∈ Finset.range 4,
          tracking_matrices.at3 matrix_counter j k *
            (if k < 4 - 1 then model.pointer_offset k else 1)) *
      (model.pivot_location j -
        ∑ k ∈ Finset.range 4,
          tracking_matrices.at3 matrix_counter j k *
            (if k < 4 - 1 then model.pointer_offset k else 1))

/-- The comparison `np.linalg.norm(diff) < error_threshold` is
decidable on rational data: for a nonnegative radicand it is the
squared comparison, and a square root is never negative. -/
def sqrtLtDec (s t : ℚ) : Decidable (Real.sqrt (s : ℝ) < (t : ℝ)) :=
  decidable_of_iff (0 < t ∧ s < t ^ 2)
    (by
      constructor
      · rintro ⟨ht, hs⟩
        exact (Real.sqrt_lt' (by exact_mod_cast ht)).mpr (by exact_mod_cast hs)
      · intro h
        have ht : (0 : ℝ) < (t : ℝ) := lt_of_le_of_lt (Real.sqrt_nonneg _) h
        have hs := (Real.sqrt_lt' ht).mp h
        exact ⟨by exact_mod_cast ht, by exact_mod_cast hs⟩)

/-- Line 191: a pose is an inlier iff the distance is strictly below
`error_threshold`. -/
def inlierTest (tracking_matrices : NDArray) (error_threshold : ℚ)
    (model : CalibrationResult) (matrix_counter : ℕ) : Bool :=
  @decide
    (Real.sqrt ((poseDistSq tracking_matrices matrix_counter model : ℚ) : ℝ) <
      ((error_threshold : ℚ) : ℝ))
    (sqrtLtDec _ _)

/-- Iteration `j` of a RANSAC run over an `n`-pose array is
consensus-satisfying when its sampled fit succeeds and the resulting
model's inlier fraction strictly exceeds the consensus threshold.
(The fit and the score depend only on the draw of iteration `j`, not
on the loop state, so this is a property of the iteration index.) -/
def iterConsensus (a : NDArray) (n : ℕ) (tE cT : ℚ) (svdOf : NDArray → SVD)
    (draws : ℕ → List ℕ) (j : ℕ) : Prop :=
  ∃ m, pivot_calibration_core (a.select (draws j)) svdOf = .ok m ∧
    cT < ((((List.range n).filter (inlierTest a tE m)).length : ℚ) / (n : ℚ))

/-- The RANSAC iteration loop (lines 171–218), one call per remaining
iteration.  State threaded exactly as the source's mutable locals:
`highest_number_of_inliers` (starts at `-1`) and the best model
(`none` models `best_pointer_offset is None`).  `iter_counter` is the
iteration index fed to the draw oracle; `fuel` the number of
iterations left.  When fuel runs out, `None` best raises
`NoConsensusError`, else the best model is returned (the possible
`.ok none` value mirrors Python's early return of a `None` triple,
which line-by-line tracing shows unreachable). -/
noncomputable def ransacLoop (tracking_matrices : NDArray)
    (error_threshold concensus_threshold : ℚ) (early_exit : Bool)
    (svdOf : NDArray → SVD) (draws : ℕ → List ℕ)
    (iter_counter : ℕ) (fuel : ℕ) (highest_number_of_inliers : ℤ)
    (best : Option CalibrationResult) :
    Except CalibError (Option CalibrationResult) :=
  match fuel with
  | 0 =>
    match best with
    | none => .error .noConsensus
    | some _ => .ok best
  | fuel' + 1 =>
    let number_of_matrices := tracking_matrices.shape.headD 0
    -- random.sample(range(n), 3) raises when the sample exceeds the population
    if number_of_matrices < 3 then .error .sampleTooLarge
    else
      let sample := tracking_matrices.select (draws iter_counter)
      match pivot_calibration_core sample svdOf with
      | .error e =>
        if e.isValueError then
          ransacLoop tracking_matrices error_threshold concensus_threshold
            early_exit svdOf draws (iter_counter + 1) fuel'
            highest_number_of_inliers best
        else .error e
      | .ok model =>
        let inlier_indices :=
          (List.range number_of_matrices).filter
            (inlierTest tracking_matrices error_threshold model)
        let number_of_inliers : ℤ := inlier_indices.length
        let percentage_inliers : ℚ :=
          (inlier_indices.length : ℚ) / (number_of_matrices : ℚ)
        if percentage_inliers > concensus_threshold ∧
            number_of_inliers > highest_number_of_inliers then
          match pivot_calibration_core
              (tracking_matrices.select inlier_indices) svdOf with
          | .error e => .error e
          | .ok refit =>
            if percentage_inliers > concensus_threshold ∧ early_exit = true then
              .ok (some refit)
            else
              ransacLoop tracking_matrices error_threshold concensus_threshold
                early_exit svdOf draws (iter_counter + 1) fuel'
                number_of_inliers (some refit)
        else
          if percentage_inliers > concensus_threshold ∧ early_exit = true then
            .ok best
          else
            ransacLoop tracking_matrices error_threshold concensus_threshold
              early_exit svdOf draws (iter_counter + 1) fuel'
              highest_number_of_inliers best

/-- `pivot_calibration_with_ransac` (lines 136–218): parameter
validation, then the iteration loop from the initial state. -/
noncomputable def pivot_calibration_with_ransac (tracking_matrices : NDArray)
    (number_iterations : ℤ) (error_threshold concensus_threshold : ℚ)
    (early_exit : Bool) (svdOf : NDArray → SVD) (draws : ℕ → List ℕ) :
    Except CalibError (Option CalibrationResult) :=
  if number_iterations < 1 then .error .configIterations
  else if error_threshold < 0 then .error .configErrorThreshold
  else if concensus_threshold < 0 ∨ concensus_threshold > 1 then
    .error .configConsensus
  else
    ransacLoop tracking_matrices error_threshold concensus_threshold
      early_exit svdOf draws 0 number_iterations.toNat (-1) none

/-- The configuration dictionary: each key either present or absent
(`dict.get` defaults apply to absent keys). -/
structure Config where
  method : Option String
  number_iterations : Option ℤ
  error_threshold : Option ℚ
  consensus_threshold : Option ℚ
  early_exit : Option Bool

/-- `pivot_calibration(tracking_matrices, configuration)` (lines
8–62): structural shape checks first, then method dispatch; results of
the AOS route are wrapped in `some` to share the RANSAC route's result
type (whose best model is optional). -/
noncomputable def pivot_calibration (tracking_matrices : NDArray)
    (configuration : Option Config) (svdOf : NDArray → SVD)
    (draws : ℕ → List ℕ) : Except CalibError (Option CalibrationResult) :=
  match tracking_matrices.shape[1]? with
  | none => .error .indexErr
  | some d1 =>
    if d1 ≠ 4 then .error .shapeRows
    else
      match tracking_matrices.shape[2]? with
      | none => .error .indexErr
      | some d2 =>
        if d2 ≠ 4 then .error .shapeCols
        else
          match configuration with
          | none => (pivot_calibration_aos tracking_matrices svdOf).map some
          | some c =>
            let method := c.method.getD "aos"
            if method = "aos" then
              (pivot_calibration_aos tracking_matrices svdOf).map some
            else if method = "ransac" then
              pivot_calibration_with_ransac tracking_matrices
                (c.number_iterations.getD 10) (c.error_threshold.getD 4)
                (c.consensus_threshold.getD (1 / 4)) (c.early_exit.getD false)
                svdOf draws
            else .error (.configMethod method)

/-! Concrete data used by the witness theorems: an all-zero pose array
of a given length, SVD oracle answers with well-conditioned and with
collapsed singular values, and a fixed draw sequence. -/

/-- An `n × 4 × 4` array of zeros. -/
def zerosArr (n : ℕ) : NDArray := ⟨[n, 4, 4], fun _ => 0⟩

/-- A rank-2 `4 × 4` array (a single pose passed where a pose array is
expected). -/
def rank2Arr : NDArray := ⟨[4, 4], fun _ => 0⟩

/-- A rank-3 array whose middle dimension is 3, not 4. -/
def badRowsArr : NDArray := ⟨[5, 3, 4], fun _ => 0⟩

/-- SVD oracle answer with six well-conditioned singular values. -/
def svdOk : SVD := ⟨fun _ _ => 0, [1, 1, 1, 1, 1, 1], fun _ _ => 0⟩

/-- SVD oracle answer with all singular values collapsed to zero. -/
def svdBad : SVD := ⟨fun _ _ => 0, [0, 0, 0, 0, 0, 0], fun _ _ => 0⟩

/-- Oracle returning well-conditioned factors for every system. -/
def svdOkOf : NDArray → SVD := fun _ => svdOk

/-- Oracle returning collapsed factors for every system. -/
def svdBadOf : NDArray → SVD := fun _ => svdBad

/-- Oracle returning collapsed factors exactly for empty systems (an
`A` built from zero poses), well-conditioned ones otherwise. -/
def svdSplitOf : NDArray → SVD := fun a =>
  if a.shape.headD 0 = 0 then svdBad else svdOk

/-- A fixed draw sequence: every iteration samples indices 0, 1, 2. -/
def drawsW : ℕ → List ℕ := fun _ => [0, 1, 2]

/-- The model fitted on the first sample of three zero poses under the
well-conditioned oracle. -/
noncomputable def fitModelW : CalibrationResult :=
  aosModel ((zerosArr 3).select (drawsW 0)) svdOkOf

/-- The same fitted model under the split oracle (well-conditioned on
the sample, collapsed on an empty refit system). -/
noncomputable def fitModelSplitW : CalibrationResult :=
  aosModel ((zerosArr 3).select (drawsW 0)) svdSplitOf

/-! ## Helper lemmas -/

theorem replace_small_values_snd (l : List ℚ) (t rep : ℚ) :
    (replace_small_values l t rep).2 =
      (l.filter (fun v => !decide (v < t))).length := by
  induction l with
  | nil => rfl
  | cons x xs ih =>
    by_cases h : x < t <;>
      simp [replace_small_values, List.filter_cons, h, ih]

theorem replace_small_values_fst (l : List ℚ) (t rep : ℚ) :
    (replace_small_values l t rep).1 =
      l.map (fun v => if v < t then rep else v) := by
  induction l with
  | nil => rfl
  | cons x xs ih =>
    by_cases h : x < t <;> simp [replace_small_values, h, ih]

/-- If at most six singular values were supplied and at least six were
counted, then none is below the threshold. -/
theorem all_ge_of_rank_ge (l : List ℚ) (t rep : ℚ) (hlen : l.length ≤ 6)
    (hrank : ¬ (replace_small_values l t rep).2 < 6) :
    ∀ v ∈ l, ¬ v < t := by
  rw [replace_small_values_snd, not_lt] at hrank
  have hle : (l.filter (fun v => !decide (v < t))).length ≤ l.length :=
    List.length_filter_le _ _
  have hall : ∀ v ∈ l, (fun v => !decide (v < t)) v = true := by
    refine List.filter_length_eq_length.mp ?_
    omega
  intro v hv
  simpa using hall v hv

theorem pivot_calibration_aos_eq_error_iff (a : NDArray) (svdOf : NDArray → SVD) :
    pivot_calibration_aos a svdOf = .error .degenerate ↔
      (replace_small_values (svdOf (a_values a)).s (1 / 100) 0).2 < 6 := by
  simp only [pivot_calibration_aos]
  by_cases h : (replace_small_values (svdOf (a_values a)).s (1 / 100) 0).2 < 6
  · rw [if_pos h]; exact iff_of_true rfl h
  · rw [if_neg h]; exact iff_of_false (by simp) h

theorem pivot_calibration_aos_ok_iff (a : NDArray) (svdOf : NDArray → SVD) :
    solveOk (pivot_calibration_aos a svdOf) = true ↔
      ¬ (replace_small_values (svdOf (a_values a)).s (1 / 100) 0).2 < 6 := by
  simp only [pivot_calibration_aos]
  by_cases h : (replace_small_values (svdOf (a_values a)).s (1 / 100) 0).2 < 6
  · rw [if_pos h]; exact iff_of_false (by simp [solveOk]) (not_not_intro h)
  · rw [if_neg h]; exact iff_of_true rfl h

/-- On success the AOS solver returns exactly `aosModel`. -/
theorem pivot_calibration_aos_ok_eq (a : NDArray) (svdOf : NDArray → SVD)
    (h : ¬ (replace_small_values (svdOf (a_values a)).s (1 / 100) 0).2 < 6) :
    pivot_calibration_aos a svdOf = .ok (aosModel a svdOf) := by
  simp only [pivot_calibration_aos]
  rw [if_neg h]

/-- When both structural checks pass, the default-configuration
dispatcher path is the AOS solve. -/
theorem pivot_calibration_core_eq_aos (a : NDArray) (svdOf : NDArray → SVD)
    (hs1 : a.shape[1]? = some 4) (hs2 : a.shape[2]? = some 4) :
    pivot_calibration_core a svdOf = pivot_calibration_aos a svdOf := by
  unfold pivot_calibration_core
  rw [hs1, hs2]
  simp

/-- A failing structural row check inside the default path. -/
theorem pivot_calibration_core_shapeRows (a : NDArray) (svdOf : NDArray → SVD)
    (d1 : ℕ) (hs1 : a.shape[1]? = some d1) (hd1 : d1 ≠ 4) :
    pivot_calibration_core a svdOf = .error .shapeRows := by
  unfold pivot_calibration_core
  rw [hs1]
  simp [hd1]

/-- The default path only ever produces the index, shape or degenerate
errors; in particular never the no-consensus or sampling errors. -/
theorem pivot_calibration_core_error_cases (a : NDArray) (svdOf : NDArray → SVD)
    (e : CalibError) (h : pivot_calibration_core a svdOf = .error e) :
    e = .indexErr ∨ e = .shapeRows ∨ e = .shapeCols ∨ e = .degenerate := by
  unfold pivot_calibration_core at h
  split at h
  · exact Or.inl (Except.error.inj h).symm
  · split at h
    · exact Or.inr (Or.inl (Except.error.inj h).symm)
    · split at h
      · exact Or.inl (Except.error.inj h).symm
      · split at h
        · exact Or.inr (Or.inr (Or.inl (Except.error.inj h).symm))
        · simp only [pivot_calibration_aos] at h
          split at h
          · exact Or.inr (Or.inr (Or.inr (Except.error.inj h).symm))
          · exact absurd h (by simp)

/-- Shape of a fancy-indexed selection. -/
theorem select_shape (a : NDArray) (idx : List ℕ) :
    (a.select idx).shape = idx.length :: a.shape.tail := rfl

/-- Fitting any selection of a well-shaped pose array can only fail
with the degenerate-input error. -/
theorem pivot_calibration_core_select_error (a : NDArray) (n : ℕ)
    (svdOf : NDArray → SVD) (idx : List ℕ) (e : CalibError)
    (hsh : a.shape = [n, 4, 4])
    (h : pivot_calibration_core (a.select idx) svdOf = .error e) :
    e = .degenerate := by
  have hs1 : (a.select idx).shape[1]? = some 4 := by
    rw [select_shape, hsh]; rfl
  have hs2 : (a.select idx).shape[2]? = some 4 := by
    rw [select_shape, hsh]; rfl
  rw [pivot_calibration_core_eq_aos _ _ hs1 hs2] at h
  simp only [pivot_calibration_aos] at h
  by_cases hr :
      (replace_small_values (svdOf (a_values (a.select idx))).s (1 / 100) 0).2 < 6
  · rw [if_pos hr] at h; exact (Except.error.inj h).symm
  · rw [if_neg hr] at h; exact absurd h (by simp)

/-- The dispatcher without configuration is exactly the default path. -/
theorem pivot_calibration_none_eq (a : NDArray) (svdOf : NDArray → SVD)
    (draws : ℕ → List ℕ) :
    pivot_calibration a none svdOf draws =
      (pivot_calibration_core a svdOf).map some := by
  unfold pivot_calibration pivot_calibration_core
  cases hs1 : a.shape[1]? with
  | none => rfl
  | some d1 =>
    dsimp only
    by_cases hd1 : d1 ≠ 4
    · rw [if_pos hd1, if_pos hd1]; rfl
    · rw [if_neg hd1, if_neg hd1]
      cases hs2 : a.shape[2]? with
      | none => rfl
      | some d2 =>
        dsimp only
        by_cases hd2 : d2 ≠ 4
        · rw [if_pos hd2, if_pos hd2]; rfl
        · rw [if_neg hd2, if_neg hd2]

/-- The stacked system has `3N` rows and 6 columns. -/
theorem a_values_shape (a : NDArray) :
    (a_values a).shape = [3 * a.shape.headD 0, 6] := rfl

/-- The entries of `A` produced by the slice/reshape/repeat/concat
pipeline: row block `i` holds the rotation block of pose `i` on the
left and minus the identity on the right. -/
theorem a_values_entry (n : ℕ) (d : ℕ → ℚ) (i j c : ℕ) (hj : j < 3)
    (hc : c < 6) :
    (a_values ⟨[n, 4, 4], d⟩).at2 (3 * i + j) c =
      if c < 3 then (⟨[n, 4, 4], d⟩ : NDArray).at3 i j c
      else if j = c - 3 then -1 else 0 := by
  have hprod : (([n, 4, 4] : List ℕ).tail.prod) = 16 := by
    simp [List.prod_cons]
  have hprod2 : (([n, 4, 4] : List ℕ).tail.tail.prod) = 4 := by
    simp [List.prod_cons]
  simp only [a_values, NDArray.at2, NDArray.at3, NDArray.concatAx1,
    NDArray.reshape, NDArray.sliceRot, NDArray.repeatAx0, NDArray.rowSize,
    eyeNeg, hprod, hprod2, List.headD_cons, List.tail_cons,
    List.getD_cons_succ, List.getD_cons_zero, List.prod_cons, List.prod_nil,
    mul_one]
  have hmod : ((3 * i + j) * (3 + 3) + c) % (3 + 3) = c := by omega
  have hdiv : ((3 * i + j) * (3 + 3) + c) / (3 + 3) = 3 * i + j := by omega
  rw [hmod, hdiv]
  by_cases hc3 : c < 3
  · rw [if_pos hc3, if_pos hc3]
    have h9 : ((3 * i + j) * 3 + c) / 9 = i := by omega
    have h3 : ((3 * i + j) * 3 + c) / 3 % 3 = j := by omega
    have h0 : ((3 * i + j) * 3 + c) % 3 = c := by omega
    rw [h9, h3, h0]
  · rw [if_neg hc3, if_neg hc3]
    have h9 : ((3 * i + j) * 3 + (c - 3)) % (3 * 3) = 3 * j + (c - 3) := by omega
    rw [h9]
    have ha : (3 * j + (c - 3)) / 3 % 3 = j := by omega
    have hb : (3 * j + (c - 3)) % 3 = c - 3 := by omega
    rw [ha, hb]

/-- The entries of `b`: minus the translation column of each pose. -/
theorem b_values_entry (n : ℕ) (d : ℕ → ℚ) (i j : ℕ) (hj : j < 3) :
    (b_values ⟨[n, 4, 4], d⟩).at2 (3 * i + j) 0 =
      -((⟨[n, 4, 4], d⟩ : NDArray).at3 i j 3) := by
  simp only [b_values, NDArray.at2, NDArray.at3, NDArray.scale,
    NDArray.reshape, NDArray.sliceTrans, List.headD_cons, List.tail_cons,
    List.prod_cons, List.prod_nil, mul_one, mul_neg_one, add_zero]
  have hdiv : (3 * i + j) / 3 = i := by omega
  have hmod : (3 * i + j) % 3 = j := by omega
  rw [hdiv, hmod]

/-- Once a best model has been recorded, a RANSAC run can no longer
end in the no-consensus error. -/
theorem ransacLoop_ne_noConsensus_of_some (a : NDArray) (tE cT : ℚ)
    (early : Bool) (svdOf : NDArray → SVD) (draws : ℕ → List ℕ) :
    ∀ (fuel i : ℕ) (highest : ℤ) (b : CalibrationResult),
      ransacLoop a tE cT early svdOf draws i fuel highest (some b) ≠
        .error .noConsensus := by
  intro fuel
  induction fuel with
  | zero => intro i highest b h; exact absurd h (by simp [ransacLoop])
  | succ fuel ih =>
    intro i highest b h
    simp only [ransacLoop] at h
    split at h
    · exact absurd h (by simp)
    · split at h
      · split at h
        · exact ih _ _ _ h
        · rename_i e heq hVE
          simp only [Except.error.injEq] at h
          subst h
          exact hVE (by rfl)
      · split at h
        · split at h
          · rename_i heq
            have := pivot_calibration_core_error_cases _ svdOf _ heq
            simp only [Except.error.injEq] at h
            subst h
            simp at this
          · split at h
            · exact absurd h (by simp)
            · exact ih _ _ _ h
        · split at h
          · exact absurd h (by simp)
          · exact ih _ _ _ h

/-- If no iteration of the remaining window is consensus-satisfying, a
loop holding no best model ends in the no-consensus error. -/
theorem ransacLoop_noConsensus (a : NDArray) (n : ℕ) (tE cT : ℚ)
    (early : Bool) (svdOf : NDArray → SVD) (draws : ℕ → List ℕ)
    (hsh : a.shape = [n, 4, 4]) (hn : 3 ≤ n) :
    ∀ (fuel i : ℕ) (highest : ℤ),
      (∀ j, i ≤ j → j < i + fuel → ¬ iterConsensus a n tE cT svdOf draws j) →
      ransacLoop a tE cT early svdOf draws i fuel highest none =
        .error .noConsensus := by
  have hhead : a.shape.headD 0 = n := by rw [hsh]; rfl
  intro fuel
  induction fuel with
  | zero => intro i highest _; rfl
  | succ fuel ih =>
    intro i highest hnone
    simp only [ransacLoop, hhead]
    rw [if_neg (by omega)]
    cases hcore : pivot_calibration_core (a.select (draws i)) svdOf with
    | error e =>
      have he : e = .degenerate :=
        pivot_calibration_core_select_error a n svdOf _ e hsh hcore
      subst he
      dsimp only
      rw [if_pos (by rfl)]
      exact ih (i + 1) highest fun j hj1 hj2 => hnone j (by omega) (by omega)
    | ok model =>
      have hpct :
          ¬ ((((List.range n).filter (inlierTest a tE model)).length : ℚ) /
              (n : ℚ) > cT) := by
        intro hgt
        exact hnone i (le_refl i) (by omega) ⟨model, hcore, hgt⟩
      dsimp only
      rw [if_neg fun hand => hpct hand.1, if_neg fun hand => hpct hand.1]
      exact ih (i + 1) highest fun j hj1 hj2 => hnone j (by omega) (by omega)

/-- If some iteration of the remaining window is consensus-satisfying,
a loop whose state satisfies the source's invariant (no best model
recorded only while the best count is still the initial `-1`) cannot
end in the no-consensus error. -/
theorem ransacLoop_not_noConsensus_of_consensus (a : NDArray) (n : ℕ)
    (tE cT : ℚ) (early : Bool) (svdOf : NDArray → SVD) (draws : ℕ → List ℕ)
    (hsh : a.shape = [n, 4, 4]) (hn : 3 ≤ n) :
    ∀ (fuel i : ℕ) (highest : ℤ) (best : Option CalibrationResult),
      (best = none → highest < 0) →
      (∃ j, i ≤ j ∧ j < i + fuel ∧ iterConsensus a n tE cT svdOf draws j) →
      ransacLoop a tE cT early svdOf draws i fuel highest best ≠
        .error .noConsensus := by
  have hhead : a.shape.headD 0 = n := by rw [hsh]; rfl
  intro fuel
  induction fuel with
  | zero => rintro i highest best _ ⟨j, hj1, hj2, _⟩; omega
  | succ fuel ih =>
    rintro i highest best hinv ⟨j, hj1, hj2, hcons⟩ h
    cases best with
    | some b => exact ransacLoop_ne_noConsensus_of_some _ _ _ _ _ _ _ _ _ _ h
    | none =>
      have hh : highest < 0 := hinv rfl
      simp only [ransacLoop, hhead] at h
      rw [if_neg (by omega)] at h
      cases hcore : pivot_calibration_core (a.select (draws i)) svdOf with
      | error e =>
        rw [hcore] at h
        have he : e = .degenerate :=
          pivot_calibration_core_select_error a n svdOf _ e hsh hcore
        subst he
        dsimp only at h
        rw [if_pos (by rfl)] at h
        have hji : j ≠ i := by
          intro hji
          subst hji
          obtain ⟨m, hm, _⟩ := hcons
          rw [hcore] at hm
          exact absurd hm (by simp)
        exact ih (i + 1) highest none hinv ⟨j, by omega, by omega, hcons⟩ h
      | ok model =>
        rw [hcore] at h
        dsimp only at h
        by_cases hgt :
            (((List.range n).filter (inlierTest a tE model)).length : ℚ) /
              (n : ℚ) > cT
        · rw [if_pos ⟨hgt, by omega⟩] at h
          cases hrefit : pivot_calibration_core
              (a.select ((List.range n).filter (inlierTest a tE model)))
              svdOf with
          | error e2 =>
            rw [hrefit] at h
            dsimp only at h
            have := pivot_calibration_core_error_cases _ svdOf _ hrefit
            simp only [Except.error.injEq] at h
            subst h
            simp at this
          | ok b2 =>
            rw [hrefit] at h
            dsimp only at h
            split at h
            · exact absurd h (by simp)
            · exact ransacLoop_ne_noConsensus_of_some _ _ _ _ _ _ _ _ _ _ h
        · have hji : j ≠ i := by
            intro hji
            subst hji
            obtain ⟨m, hm, hgt'⟩ := hcons
            rw [hcore] at hm
            cases Except.ok.inj hm
            exact hgt hgt'
          rw [if_neg fun hand => hgt hand.1,
            if_neg fun hand => hgt hand.1] at h
          exact ih (i + 1) highest none hinv ⟨j, by omega, by omega, hcons⟩ h

/-! ## Claim theorems -/

/-- C1: for every pose array, `pivot_calibration_aos` fails (with the
degenerate-input error) exactly when the rank computed by
`replace_small_values` from the singular values of the stacked system
is below 6, where that rank counts the values not below the fixed
threshold `1/100` and the values below it are replaced by `0` and not
counted; a calibration result is returned exactly otherwise. -/
theorem claim_C1 :
    (∀ (l : List ℚ) (t rep : ℚ),
        (replace_small_values l t rep).2 =
          (l.filter (fun v => !decide (v < t))).length ∧
        (replace_small_values l t rep).1 =
          l.map (fun v => if v < t then rep else v)) ∧
    (∀ (a : NDArray) (svdOf : NDArray → SVD),
        (pivot_calibration_aos a svdOf = .error .degenerate ↔
          (replace_small_values (svdOf (a_values a)).s (1 / 100) 0).2 < 6) ∧
        (solveOk (pivot_calibration_aos a svdOf) = true ↔
          ¬ (replace_small_values (svdOf (a_values a)).s (1 / 100) 0).2 < 6)) := by
  refine ⟨fun l t rep => ⟨replace_small_values_snd l t rep,
    replace_small_values_fst l t rep⟩, fun a svdOf => ⟨?_, ?_⟩⟩
  · exact pivot_calibration_aos_eq_error_iff a svdOf
  · exact pivot_calibration_aos_ok_iff a svdOf

/-- Indexing into the tail of a shape list. -/
theorem tail_getElem_zero (l : List ℕ) : l.tail[0]? = l[1]? := by
  cases l <;> simp

/-- Indexing into the tail of a shape list, one further. -/
theorem tail_getElem_one (l : List ℕ) : l.tail[1]? = l[2]? := by
  cases l <;> simp

/-- A failing structural column check inside the default path. -/
theorem pivot_calibration_core_shapeCols (a : NDArray) (svdOf : NDArray → SVD)
    (d2 : ℕ) (hs1 : a.shape[1]? = some 4) (hs2 : a.shape[2]? = some d2)
    (hd2 : d2 ≠ 4) :
    pivot_calibration_core a svdOf = .error .shapeCols := by
  unfold pivot_calibration_core
  rw [hs1]
  dsimp only
  rw [if_neg (by omega), hs2]
  dsimp only
  rw [if_pos hd2]

/-- The `shape[2]` access on an array whose dimension 1 is 4 but which
has no dimension 2 raises the index error inside the default path. -/
theorem pivot_calibration_core_missing_dim2 (a : NDArray)
    (svdOf : NDArray → SVD) (hs1 : a.shape[1]? = some 4)
    (hs2 : a.shape[2]? = none) :
    pivot_calibration_core a svdOf = .error .indexErr := by
  unfold pivot_calibration_core
  rw [hs1]
  dsimp only
  rw [if_neg (by omega), hs2]

/-- When both structural dimensions are 4, the only error the default
path can produce is the degenerate-input error. -/
theorem pivot_calibration_core_error_degenerate (a : NDArray)
    (svdOf : NDArray → SVD) (e : CalibError) (hs1 : a.shape[1]? = some 4)
    (hs2 : a.shape[2]? = some 4)
    (h : pivot_calibration_core a svdOf = .error e) : e = .degenerate := by
  rw [pivot_calibration_core_eq_aos a svdOf hs1 hs2] at h
  simp only [pivot_calibration_aos] at h
  split at h
  · exact (Except.error.inj h).symm
  · exact absurd h (by simp)

/-- Mapping the AOS result into the dispatcher's result type can only
fail with the degenerate-input error. -/
theorem aos_map_error (a : NDArray) (svdOf : NDArray → SVD) (e : CalibError)
    (h : (pivot_calibration_aos a svdOf).map some = .error e) :
    e = .degenerate := by
  cases haos : pivot_calibration_aos a svdOf with
  | error e2 =>
    rw [haos] at h
    have hred : (Except.error e2 :
        Except CalibError CalibrationResult).map some = .error e2 := rfl
    rw [hred] at h
    have hd : e2 = .degenerate := by
      simp only [pivot_calibration_aos] at haos
      split at haos
      · exact (Except.error.inj haos).symm
      · exact absurd haos (by simp)
    cases Except.error.inj h
    exact hd
  | ok r =>
    rw [haos] at h
    have hred : (Except.ok r :
        Except CalibError CalibrationResult).map some = .ok (some r) := rfl
    rw [hred] at h
    exact absurd h (by simp)

/-- When every iteration's sample fit fails with a caught error, a
loop started with no best model ends in the no-consensus error. -/
theorem ransacLoop_allCaught (a : NDArray) (tE cT : ℚ) (early : Bool)
    (svdOf : NDArray → SVD) (draws : ℕ → List ℕ)
    (hn : 3 ≤ a.shape.headD 0)
    (hfail : ∀ i, ∃ e,
      pivot_calibration_core (a.select (draws i)) svdOf = .error e ∧
        e.isValueError = true) :
    ∀ (fuel i : ℕ) (highest : ℤ),
      ransacLoop a tE cT early svdOf draws i fuel highest none =
        .error .noConsensus := by
  intro fuel
  induction fuel with
  | zero => intro i highest; rfl
  | succ fuel ih =>
    intro i highest
    obtain ⟨e, he, hve⟩ := hfail i
    simp only [ransacLoop, he]
    rw [if_neg (by omega), if_pos hve]
    exact ih (i + 1) highest

/-- On an array whose trailing two dimensions are both 4 (at any
rank), the iteration loop can only fail with the degenerate-input,
no-consensus or sampling errors: sample-fit shape checks pass, fit
failures are degenerate and caught, and any refit runs on an array
with the same trailing dimensions. -/
theorem ransacLoop_error_cases (a : NDArray) (tE cT : ℚ) (early : Bool)
    (svdOf : NDArray → SVD) (draws : ℕ → List ℕ)
    (h1 : a.shape.tail[0]? = some 4) (h2 : a.shape.tail[1]? = some 4) :
    ∀ (fuel i : ℕ) (highest : ℤ) (best : Option CalibrationResult)
        (e : CalibError),
      ransacLoop a tE cT early svdOf draws i fuel highest best = .error e →
      e = .degenerate ∨ e = .noConsensus ∨ e = .sampleTooLarge := by
  have hsel : ∀ idx : List ℕ, (a.select idx).shape[1]? = some 4 ∧
      (a.select idx).shape[2]? = some 4 := by
    intro idx
    rw [select_shape]
    exact ⟨by simpa using h1, by simpa using h2⟩
  have hselerr : ∀ (idx : List ℕ) (e2 : CalibError),
      pivot_calibration_core (a.select idx) svdOf = .error e2 →
      e2 = .degenerate := fun idx e2 hh =>
    pivot_calibration_core_error_degenerate _ svdOf e2 (hsel idx).1
      (hsel idx).2 hh
  intro fuel
  induction fuel with
  | zero =>
    intro i highest best e h
    cases best with
    | none =>
      simp only [ransacLoop] at h
      exact Or.inr (Or.inl (Except.error.inj h).symm)
    | some b =>
      simp only [ransacLoop] at h
      exact absurd h (by simp)
  | succ fuel ih =>
    intro i highest best e h
    simp only [ransacLoop] at h
    split at h
    · exact Or.inr (Or.inr (Except.error.inj h).symm)
    · cases hcore : pivot_calibration_core (a.select (draws i)) svdOf with
      | error efit =>
        rw [hcore] at h
        dsimp only at h
        split at h
        · exact ih _ _ _ _ h
        · rename_i hVE
          have hd := hselerr _ _ hcore
          subst hd
          exact absurd rfl hVE
      | ok model =>
        rw [hcore] at h
        dsimp only at h
        split at h
        · cases hrefit : pivot_calibration_core
              (a.select ((List.range (a.shape.headD 0)).filter
                (inlierTest a tE model))) svdOf with
          | error e2 =>
            rw [hrefit] at h
            dsimp only at h
            have hd := hselerr _ _ hrefit
            cases Except.error.inj h
            exact Or.inl hd
          | ok b2 =>
            rw [hrefit] at h
            dsimp only at h
            split at h
            · exact absurd h (by simp)
            · exact ih _ _ _ _ h
        · split at h
          · exact absurd h (by simp)
          · exact ih _ _ _ _ h

/-- After the structural checks pass, the dispatcher is exactly its
method-selection body. -/
theorem pivot_calibration_dispatch (a : NDArray) (cfg : Option Config)
    (svdOf : NDArray → SVD) (draws : ℕ → List ℕ)
    (hs1 : a.shape[1]? = some 4) (hs2 : a.shape[2]? = some 4) :
    pivot_calibration a cfg svdOf draws =
      (match cfg with
       | none => (pivot_calibration_aos a svdOf).map some
       | some c =>
         if c.method.getD "aos" = "aos" then
           (pivot_calibration_aos a svdOf).map some
         else if c.method.getD "aos" = "ransac" then
           pivot_calibration_with_ransac a (c.number_iterations.getD 10)
             (c.error_threshold.getD 4) (c.consensus_threshold.getD (1 / 4))
             (c.early_exit.getD false) svdOf draws
         else .error (.configMethod (c.method.getD "aos"))) := by
  unfold pivot_calibration
  rw [hs1]
  dsimp only
  rw [if_neg (by omega), hs2]
  dsimp only
  rw [if_neg (by omega)]
  cases cfg <;> rfl

/-- The errors the dispatcher can produce once both structural
dimensions equal 4 are never structural. -/
theorem not_structural (e : CalibError)
    (h : e = .degenerate ∨ e = .noConsensus ∨ e = .sampleTooLarge ∨
      e = .configIterations ∨ e = .configErrorThreshold ∨
      e = .configConsensus ∨ ∃ m, e = .configMethod m) :
    e ≠ .shapeRows ∧ e ≠ .shapeCols ∧ e ≠ .indexErr ∧ e ≠ .typeErr := by
  rcases h with rfl | rfl | rfl | rfl | rfl | rfl | ⟨m, rfl⟩ <;>
    exact ⟨fun hh => CalibError.noConfusion hh,
      fun hh => CalibError.noConfusion hh,
      fun hh => CalibError.noConfusion hh,
      fun hh => CalibError.noConfusion hh⟩

/-- C4, counterexample: a rank-2 `4 × 4` array is not a rank-3 array
with trailing dimensions 4 × 4, so the claim demands a ShapeError; the
dispatcher instead fails with the out-of-taxonomy index error (Python:
`shape[2]` raises `IndexError` before any shape comparison fails). -/
theorem claim_C4_counterexample :
    pivot_calibration rank2Arr none svdBadOf drawsW = .error .indexErr ∧
    CalibError.indexErr ≠ CalibError.shapeRows ∧
    CalibError.indexErr ≠ CalibError.shapeCols := by
  exact ⟨rfl, by decide, by decide⟩

/-- C4, amended: the dispatcher fails with a ShapeError exactly when
the dimension at index 1 exists and differs from 4 (rows error), or it
equals 4 and the dimension at index 2 exists and differs from 4
(columns error) — in every configuration, before any method dispatch;
when both dimensions equal 4, whatever the array's rank, no shape,
index or type error is ever returned, so such arrays (rank above 3
included) pass the structural check; an array one of whose checked
dimensions is missing while the present ones pass fails with the index
error instead.  `solve_ransac` performs no structural check of its
own: with valid parameters and at least 3 poses, an array whose
dimension 1 differs from 4, or equals 4 with dimension 2 differing
from 4, has every per-iteration fit fail with a caught ShapeError and
ends with the no-consensus error; a rank-2 array whose dimension 1
equals 4 instead fails with the uncaught index error raised by the
first sample's fit. -/
theorem claim_C4_amended :
    (∀ (a : NDArray) (cfg : Option Config) (svdOf : NDArray → SVD)
        (draws : ℕ → List ℕ),
      (a.shape[1]? = none →
        pivot_calibration a cfg svdOf draws = .error .indexErr) ∧
      (∀ d1, a.shape[1]? = some d1 → d1 ≠ 4 →
        pivot_calibration a cfg svdOf draws = .error .shapeRows) ∧
      (a.shape[1]? = some 4 → a.shape[2]? = none →
        pivot_calibration a cfg svdOf draws = .error .indexErr) ∧
      (∀ d2, a.shape[1]? = some 4 → a.shape[2]? = some d2 → d2 ≠ 4 →
        pivot_calibration a cfg svdOf draws = .error .shapeCols)) ∧
    (∀ (a : NDArray) (cfg : Option Config) (svdOf : NDArray → SVD)
        (draws : ℕ → List ℕ) (e : CalibError),
      a.shape[1]? = some 4 → a.shape[2]? = some 4 →
      pivot_calibration a cfg svdOf draws = .error e →
      e ≠ .shapeRows ∧ e ≠ .shapeCols ∧ e ≠ .indexErr ∧ e ≠ .typeErr) ∧
    (∀ (n d1 : ℕ) (tail : List ℕ) (data : ℕ → ℚ) (ni : ℤ) (tE cT : ℚ)
        (early : Bool) (svdOf : NDArray → SVD) (draws : ℕ → List ℕ),
      3 ≤ n → d1 ≠ 4 → ¬ ni < 1 → ¬ tE < 0 → ¬ (cT < 0 ∨ cT > 1) →
      pivot_calibration_with_ransac ⟨n :: d1 :: tail, data⟩ ni tE cT early
          svdOf draws = .error .noConsensus) ∧
    (∀ (n d2 : ℕ) (rest : List ℕ) (data : ℕ → ℚ) (ni : ℤ) (tE cT : ℚ)
        (early : Bool) (svdOf : NDArray → SVD) (draws : ℕ → List ℕ),
      3 ≤ n → d2 ≠ 4 → ¬ ni < 1 → ¬ tE < 0 → ¬ (cT < 0 ∨ cT > 1) →
      pivot_calibration_with_ransac ⟨n :: 4 :: d2 :: rest, data⟩ ni tE cT
          early svdOf draws = .error .noConsensus) ∧
    (∀ (n : ℕ) (data : ℕ → ℚ) (ni : ℤ) (tE cT : ℚ) (early : Bool)
        (svdOf : NDArray → SVD) (draws : ℕ → List ℕ),
      3 ≤ n → ¬ ni < 1 → ¬ tE < 0 → ¬ (cT < 0 ∨ cT > 1) →
      pivot_calibration_with_ransac ⟨[n, 4], data⟩ ni tE cT early svdOf
          draws = .error .indexErr) := by
  refine ⟨?_, ?_, ?_, ?_, ?_⟩
  · intro a cfg svdOf draws
    refine ⟨?_, ?_, ?_, ?_⟩
    · intro h1; unfold pivot_calibration; rw [h1]
    · intro d1 h1 hd1; unfold pivot_calibration; rw [h1]
      dsimp only; rw [if_pos hd1]
    · intro h1 h2; unfold pivot_calibration; rw [h1]
      dsimp only; rw [if_neg (by omega), h2]
    · intro d2 h1 h2 hd2; unfold pivot_calibration; rw [h1]
      dsimp only; rw [if_neg (by omega), h2]
      dsimp only; rw [if_pos hd2]
  · intro a cfg svdOf draws e hs1 hs2 herr
    have ht1 : a.shape.tail[0]? = some 4 := by rw [tail_getElem_zero]; exact hs1
    have ht2 : a.shape.tail[1]? = some 4 := by rw [tail_getElem_one]; exact hs2
    rw [pivot_calibration_dispatch a cfg svdOf draws hs1 hs2] at herr
    apply not_structural
    cases cfg with
    | none => exact Or.inl (aos_map_error a svdOf e herr)
    | some c =>
      dsimp only at herr
      split at herr
      · exact Or.inl (aos_map_error a svdOf e herr)
      · split at herr
        · unfold pivot_calibration_with_ransac at herr
          split at herr
          · exact Or.inr (Or.inr (Or.inr (Or.inl
              (Except.error.inj herr).symm)))
          · split at herr
            · exact Or.inr (Or.inr (Or.inr (Or.inr (Or.inl
                (Except.error.inj herr).symm))))
            · split at herr
              · exact Or.inr (Or.inr (Or.inr (Or.inr (Or.inr (Or.inl
                  (Except.error.inj herr).symm)))))
              · rcases ransacLoop_error_cases a _ _ _ svdOf draws ht1 ht2
                    _ _ _ _ _ herr with h3 | h3 | h3
                · exact Or.inl h3
                · exact Or.inr (Or.inl h3)
                · exact Or.inr (Or.inr (Or.inl h3))
        · exact Or.inr (Or.inr (Or.inr (Or.inr (Or.inr (Or.inr
            ⟨_, (Except.error.inj herr).symm⟩)))))
  · intro n d1 tail data ni tE cT early svdOf draws hn hd1 hni htE hcT
    unfold pivot_calibration_with_ransac
    rw [if_neg hni, if_neg htE, if_neg hcT]
    refine ransacLoop_allCaught ⟨n :: d1 :: tail, data⟩ tE cT early svdOf
      draws hn (fun i => ⟨.shapeRows, ?_, rfl⟩) ni.toNat 0 (-1)
    refine pivot_calibration_core_shapeRows _ svdOf d1 ?_ hd1
    rw [select_shape]
    simp
  · intro n d2 rest data ni tE cT early svdOf draws hn hd2 hni htE hcT
    unfold pivot_calibration_with_ransac
    rw [if_neg hni, if_neg htE, if_neg hcT]
    refine ransacLoop_allCaught ⟨n :: 4 :: d2 :: rest, data⟩ tE cT early
      svdOf draws hn (fun i => ⟨.shapeCols, ?_, rfl⟩) ni.toNat 0 (-1)
    refine pivot_calibration_core_shapeCols _ svdOf d2 ?_ ?_ hd2
    · rw [select_shape]; simp
    · rw [select_shape]; simp
  · intro n data ni tE cT early svdOf draws hn hni htE hcT
    unfold pivot_calibration_with_ransac
    rw [if_neg hni, if_neg htE, if_neg hcT]
    obtain ⟨m, hm⟩ : ∃ m, ni.toNat = m + 1 := ⟨ni.toNat - 1, by omega⟩
    rw [hm]
    have hfit : pivot_calibration_core
        ((⟨[n, 4], data⟩ : NDArray).select (draws 0)) svdOf =
          .error .indexErr := by
      refine pivot_calibration_core_missing_dim2 _ svdOf ?_ ?_
      · rw [select_shape]; simp
      · rw [select_shape]; simp
    simp only [ransacLoop, hfit]
    rw [if_neg (by simpa using (by omega : ¬ n < 3)),
      if_neg (by decide : ¬ CalibError.isValueError .indexErr = true)]

/-- C4, witness for the amended claim: concrete instances of each
amended branch. -/
theorem claim_C4_witness :
    pivot_calibration ⟨[5], fun _ => 0⟩ none svdBadOf drawsW =
      .error .indexErr ∧
    pivot_calibration badRowsArr none svdBadOf drawsW = .error .shapeRows ∧
    pivot_calibration rank2Arr (some ⟨some "ransac", none, none, none, none⟩)
      svdBadOf drawsW = .error .indexErr ∧
    pivot_calibration ⟨[5, 4, 3], fun _ => 0⟩ none svdBadOf drawsW =
      .error .shapeCols ∧
    (CalibError.degenerate ≠ CalibError.shapeRows ∧
      CalibError.degenerate ≠ CalibError.shapeCols ∧
      CalibError.degenerate ≠ CalibError.indexErr ∧
      CalibError.degenerate ≠ CalibError.typeErr) ∧
    pivot_calibration_with_ransac badRowsArr 10 4 (1 / 4) false svdBadOf
      drawsW = .error .noConsensus ∧
    pivot_calibration_with_ransac ⟨[5, 4, 3], fun _ => 0⟩ 10 4 (1 / 4) false
      svdBadOf drawsW = .error .noConsensus ∧
    pivot_calibration_with_ransac ⟨[5, 4], fun _ => 0⟩ 10 4 (1 / 4) false
      svdBadOf drawsW = .error .indexErr := by
  have h := claim_C4_amended
  refine ⟨(h.1 _ none svdBadOf drawsW).1 rfl,
    (h.1 _ none svdBadOf drawsW).2.1 3 rfl (by decide),
    (h.1 _ _ svdBadOf drawsW).2.2.1 rfl rfl,
    (h.1 _ none svdBadOf drawsW).2.2.2 3 rfl rfl (by decide),
    h.2.1 (zerosArr 2) none svdBadOf drawsW .degenerate rfl rfl
      (by with_unfolding_all rfl),
    h.2.2.1 5 3 [4] (fun _ => 0) 10 4 (1 / 4) false svdBadOf drawsW
      (by decide) (by decide) (by decide) (by with_unfolding_all decide)
      (by with_unfolding_all decide),
    h.2.2.2.1 5 3 [] (fun _ => 0) 10 4 (1 / 4) false svdBadOf drawsW
      (by decide) (by decide) (by decide) (by with_unfolding_all decide)
      (by with_unfolding_all decide),
    h.2.2.2.2 5 (fun _ => 0) 10 4 (1 / 4) false svdBadOf drawsW
      (by decide) (by decide) (by with_unfolding_all decide)
      (by with_unfolding_all decide)⟩

/-- C8: `solve_ransac` validates its parameters before anything else:
iteration counts below 1, negative error thresholds, and consensus
thresholds outside `[0, 1]` each fail with the corresponding
configuration error, for every pose array, oracle and draw sequence
(so before any sampling or linear algebra). -/
theorem claim_C8 (a : NDArray) (ni : ℤ) (tE cT : ℚ) (early : Bool)
    (svdOf : NDArray → SVD) (draws : ℕ → List ℕ) :
    (ni < 1 →
      pivot_calibration_with_ransac a ni tE cT early svdOf draws =
        .error .configIterations) ∧
    (¬ ni < 1 → tE < 0 →
      pivot_calibration_with_ransac a ni tE cT early svdOf draws =
        .error .configErrorThreshold) ∧
    (¬ ni < 1 → ¬ tE < 0 → (cT < 0 ∨ cT > 1) →
      pivot_calibration_with_ransac a ni tE cT early svdOf draws =
        .error .configConsensus) := by
  refine ⟨?_, ?_, ?_⟩
  · intro h; unfold pivot_calibration_with_ransac; rw [if_pos h]
  · intro h1 h2; unfold pivot_calibration_with_ransac
    rw [if_neg h1, if_pos h2]
  · intro h1 h2 h3; unfold pivot_calibration_with_ransac
    rw [if_neg h1, if_neg h2, if_pos h3]

/-- C8, witness: the three validation failures at concrete inputs. -/
theorem claim_C8_witness :
    pivot_calibration_with_ransac (zerosArr 3) 0 4 (1 / 4) false svdBadOf
      drawsW = .error .configIterations ∧
    pivot_calibration_with_ransac (zerosArr 3) 1 (-1) (1 / 4) false svdBadOf
      drawsW = .error .configErrorThreshold ∧
    pivot_calibration_with_ransac (zerosArr 3) 1 4 2 false svdBadOf
      drawsW = .error .configConsensus := by
  refine ⟨(claim_C8 (zerosArr 3) 0 4 (1 / 4) false svdBadOf drawsW).1
      (by decide),
    (claim_C8 (zerosArr 3) 1 (-1) (1 / 4) false svdBadOf drawsW).2.1
      (by decide) (by decide),
    (claim_C8 (zerosArr 3) 1 4 2 false svdBadOf drawsW).2.2
      (by decide) (by decide) (by decide)⟩

/-- C10: on a well-shaped pose array with fewer than 3 poses and valid
parameters, `solve_ransac` fails with the sampling error raised by the
subset draw itself — for every oracle and draw sequence, hence before
any candidate model is fitted — and that error is none of the four
kinds of the spec's taxonomy. -/
theorem claim_C10 (n : ℕ) (data : ℕ → ℚ) (ni : ℤ) (tE cT : ℚ) (early : Bool)
    (svdOf : NDArray → SVD) (draws : ℕ → List ℕ) (hn : n < 3)
    (hni : ¬ ni < 1) (htE : ¬ tE < 0) (hcT : ¬ (cT < 0 ∨ cT > 1)) :
    pivot_calibration_with_ransac ⟨[n, 4, 4], data⟩ ni tE cT early svdOf
        draws = .error .sampleTooLarge ∧
    CalibError.sampleTooLarge ≠ CalibError.shapeRows ∧
    CalibError.sampleTooLarge ≠ CalibError.shapeCols ∧
    (∀ m, CalibError.sampleTooLarge ≠ CalibError.configMethod m) ∧
    CalibError.sampleTooLarge ≠ CalibError.configIterations ∧
    CalibError.sampleTooLarge ≠ CalibError.configErrorThreshold ∧
    CalibError.sampleTooLarge ≠ CalibError.configConsensus ∧
    CalibError.sampleTooLarge ≠ CalibError.degenerate ∧
    CalibError.sampleTooLarge ≠ CalibError.noConsensus := by
  refine ⟨?_, by decide, by decide, fun m h => CalibError.noConfusion h,
    by decide, by decide, by decide, by decide, by decide⟩
  unfold pivot_calibration_with_ransac
  rw [if_neg hni, if_neg htE, if_neg hcT]
  obtain ⟨m, hm⟩ : ∃ m, ni.toNat = m + 1 := ⟨ni.toNat - 1, by omega⟩
  rw [hm]
  simp only [ransacLoop]
  rw [if_pos (by simpa using hn)]

/-- C5: routing of the dispatcher once the structural checks pass.  No
configuration, or a configuration whose `method` is the AOS token
`"aos"` (the spec's `algebraic_one_step`) or is absent, runs the AOS
solve, ignoring all other fields; `method = "ransac"` runs the robust
estimator with `dict.get` defaults 10, 4, 0.25 and `false` for missing
fields; any other method string fails with the configuration error
naming that string. -/
theorem claim_C5 (a : NDArray) (svdOf : NDArray → SVD) (draws : ℕ → List ℕ)
    (hs1 : a.shape[1]? = some 4) (hs2 : a.shape[2]? = some 4) :
    (pivot_calibration a none svdOf draws =
      (pivot_calibration_aos a svdOf).map some) ∧
    (∀ c : Config, c.method = some "aos" ∨ c.method = none →
      pivot_calibration a (some c) svdOf draws =
        (pivot_calibration_aos a svdOf).map some) ∧
    (∀ c : Config, c.method = some "ransac" →
      pivot_calibration a (some c) svdOf draws =
        pivot_calibration_with_ransac a (c.number_iterations.getD 10)
          (c.error_threshold.getD 4) (c.consensus_threshold.getD (1 / 4))
          (c.early_exit.getD false) svdOf draws) ∧
    (∀ (c : Config) (m : String), c.method = some m → m ≠ "aos" →
      m ≠ "ransac" →
      pivot_calibration a (some c) svdOf draws = .error (.configMethod m)) := by
  have hbody : ∀ cfg : Option Config,
      pivot_calibration a cfg svdOf draws =
        (match cfg with
         | none => (pivot_calibration_aos a svdOf).map some
         | some c =>
           if c.method.getD "aos" = "aos" then
             (pivot_calibration_aos a svdOf).map some
           else if c.method.getD "aos" = "ransac" then
             pivot_calibration_with_ransac a (c.number_iterations.getD 10)
               (c.error_threshold.getD 4) (c.consensus_threshold.getD (1 / 4))
               (c.early_exit.getD false) svdOf draws
           else .error (.configMethod (c.method.getD "aos"))) := by
    intro cfg
    unfold pivot_calibration
    rw [hs1]
    dsimp only
    rw [if_neg (by omega), hs2]
    dsimp only
    rw [if_neg (by omega)]
    cases cfg <;> rfl
  refine ⟨hbody none, ?_, ?_, ?_⟩
  · intro c hc
    rw [hbody (some c)]
    rcases hc with hc | hc <;> simp [hc]
  · intro c hc
    rw [hbody (some c)]
    simp [hc]
  · intro c m hc hm1 hm2
    rw [hbody (some c)]
    simp [hc, hm1, hm2]

/-- C5, witness: an unknown method string fails naming it, and the
RANSAC route applies the documented defaults for absent fields. -/
theorem claim_C5_witness :
    pivot_calibration (zerosArr 2) (some ⟨some "xyz", none, none, none, none⟩)
      svdBadOf drawsW = .error (.configMethod "xyz") ∧
    pivot_calibration (zerosArr 2)
        (some ⟨some "ransac", none, none, none, none⟩) svdBadOf drawsW =
      pivot_calibration_with_ransac (zerosArr 2) 10 4 (1 / 4) false svdBadOf
        drawsW ∧
    pivot_calibration (zerosArr 2) (some ⟨some "aos", none, some 7, none, none⟩)
      svdBadOf drawsW = (pivot_calibration_aos (zerosArr 2) svdBadOf).map some := by
  have h := claim_C5 (zerosArr 2) svdBadOf drawsW rfl rfl
  exact ⟨h.2.2.2 _ "xyz" rfl (by decide) (by decide),
    h.2.2.1 ⟨some "ransac", none, none, none, none⟩ rfl,
    h.2.1 ⟨some "aos", none, some 7, none, none⟩ (Or.inl rfl)⟩

/-- C2: the solution of `pivot_calibration_aos` behaves as if the
reciprocals were taken only of singular values at or above `1/100`
after zeroing the rest: whenever the oracle supplies at most six
singular values (as `np.linalg.svd` does for a `3N × 6` system), the
solver is extensionally equal to the spec-ordered
`pivot_calibration_aos_filtered`, in which each zeroed singular value
contributes zero to the returned solution. -/
theorem claim_C2 (a : NDArray) (svdOf : NDArray → SVD)
    (h6 : (svdOf (a_values a)).s.length ≤ 6) :
    pivot_calibration_aos a svdOf = pivot_calibration_aos_filtered a svdOf := by
  by_cases h : (replace_small_values (svdOf (a_values a)).s (1 / 100) 0).2 < 6
  · simp only [pivot_calibration_aos, pivot_calibration_aos_filtered]
    rw [if_pos h, if_pos h]
  · have hall := all_ge_of_rank_ge _ _ _ h6 h
    have hx : aosX a svdOf = aosXFiltered a svdOf := by
      funext j
      simp only [aosX, aosXFiltered, xSolve, xSolveFiltered]
      refine Finset.sum_congr rfl fun k hk => ?_
      have hk' : k < (svdOf (a_values a)).s.length := Finset.mem_range.mp hk
      have hget : (svdOf (a_values a)).s.getD k 0 = (svdOf (a_values a)).s[k] := by
        rw [List.getD_eq_getElem?_getD, List.getElem?_eq_getElem hk']
        rfl
      have hv : ¬ (svdOf (a_values a)).s.getD k 0 < 1 / 100 := by
        rw [hget]
        exact hall _ (List.getElem_mem hk')
      rw [if_neg hv]
    have hres : aosResidualSq a svdOf = aosResidualSqFiltered a svdOf := by
      simp only [aosResidualSq, aosResidualSqFiltered, hx]
    have hmodel : aosModel a svdOf = aosModelFiltered a svdOf := by
      simp only [aosModel, aosModelFiltered, hx, hres]
    simp only [pivot_calibration_aos, pivot_calibration_aos_filtered]
    rw [if_neg h, if_neg h, hmodel]

/-- C2, witness: a well-conditioned six-value oracle on two zero
poses. -/
theorem claim_C2_witness :
    pivot_calibration_aos (zerosArr 2) svdOkOf =
      pivot_calibration_aos_filtered (zerosArr 2) svdOkOf := by
  exact claim_C2 (zerosArr 2) svdOkOf (by decide)

/-- C3: for a well-shaped `N × 4 × 4` pose array, the linear system
built by the solver has row block `i` of `A` equal to the rotation of
pose `i` on the left and minus the identity on the right, and entry
block `i` of `b` equal to minus the translation of pose `i`; whenever
the solve succeeds, the returned pointer offset is the first three
components of the solution `x` and the pivot location the next three,
and the returned residual is the square root of the sum of squared
components of `A·x − b` divided by `3N`. -/
theorem claim_C3 (a : NDArray) (n : ℕ) (svdOf : NDArray → SVD)
    (hsh : a.shape = [n, 4, 4]) :
    (∀ i j c, j < 3 → c < 6 →
      (a_values a).at2 (3 * i + j) c =
        if c < 3 then a.at3 i j c else if j = c - 3 then -1 else 0) ∧
    (∀ i j, j < 3 →
      (b_values a).at2 (3 * i + j) 0 = -(a.at3 i j 3)) ∧
    (∀ r, pivot_calibration_aos a svdOf = .ok r →
      r.pointer_offset = (fun j => aosX a svdOf j) ∧
      r.pivot_location = (fun j => aosX a svdOf (3 + j)) ∧
      r.residual_error =
        Real.sqrt ((((∑ row ∈ Finset.range (3 * n),
            ((∑ c ∈ Finset.range 6,
                (a_values a).at2 row c * aosX a svdOf c) -
              (b_values a).at2 row 0) *
            ((∑ c ∈ Finset.range 6,
                (a_values a).at2 row c * aosX a svdOf c) -
              (b_values a).at2 row 0)) / ((n * 3 : ℕ) : ℚ)) : ℚ) : ℝ)) := by
  obtain ⟨sh, d⟩ := a
  simp only [NDArray.mk.injEq] at hsh
  subst hsh
  refine ⟨fun i j c hj hc => a_values_entry n d i j c hj hc,
    fun i j hj => b_values_entry n d i j hj, ?_⟩
  intro r hok
  have hres : aosResidualSq ⟨[n, 4, 4], d⟩ svdOf =
      (∑ row ∈ Finset.range (3 * n),
        ((∑ c ∈ Finset.range 6,
            (a_values ⟨[n, 4, 4], d⟩).at2 row c *
              aosX ⟨[n, 4, 4], d⟩ svdOf c) -
          (b_values ⟨[n, 4, 4], d⟩).at2 row 0) *
        ((∑ c ∈ Finset.range 6,
            (a_values ⟨[n, 4, 4], d⟩).at2 row c *
              aosX ⟨[n, 4, 4], d⟩ svdOf c) -
          (b_values ⟨[n, 4, 4], d⟩).at2 row 0)) / ((n * 3 : ℕ) : ℚ) := by
    simp only [aosResidualSq, a_values_shape, List.headD_cons,
      List.getD_cons_succ, List.getD_cons_zero]
  have hmodel : r = aosModel ⟨[n, 4, 4], d⟩ svdOf := by
    simp only [pivot_calibration_aos] at hok
    by_cases hr :
        (replace_small_values (svdOf (a_values ⟨[n, 4, 4], d⟩)).s (1 / 100)
          0).2 < 6
    · rw [if_pos hr] at hok; exact absurd hok (by simp)
    · rw [if_neg hr] at hok; exact (Except.ok.inj hok).symm
  subst hmodel
  exact ⟨rfl, rfl, by simp only [aosModel, hres]⟩

/-- C3, witness: the structure facts instantiated on two zero poses
with a well-conditioned oracle. -/
theorem claim_C3_witness :
    (∀ i j c, j < 3 → c < 6 →
      (a_values (zerosArr 2)).at2 (3 * i + j) c =
        if c < 3 then (zerosArr 2).at3 i j c
        else if j = c - 3 then -1 else 0) ∧
    (∀ i j, j < 3 →
      (b_values (zerosArr 2)).at2 (3 * i + j) 0 = -((zerosArr 2).at3 i j 3)) ∧
    (∀ r, pivot_calibration_aos (zerosArr 2) svdOkOf = .ok r →
      r.pointer_offset = (fun j => aosX (zerosArr 2) svdOkOf j) ∧
      r.pivot_location = (fun j => aosX (zerosArr 2) svdOkOf (3 + j)) ∧
      r.residual_error =
        Real.sqrt ((((∑ row ∈ Finset.range (3 * 2),
            ((∑ c ∈ Finset.range 6,
                (a_values (zerosArr 2)).at2 row c *
                  aosX (zerosArr 2) svdOkOf c) -
              (b_values (zerosArr 2)).at2 row 0) *
            ((∑ c ∈ Finset.range 6,
                (a_values (zerosArr 2)).at2 row c *
                  aosX (zerosArr 2) svdOkOf c) -
              (b_values (zerosArr 2)).at2 row 0)) / ((2 * 3 : ℕ) : ℚ)) : ℚ) :
          ℝ)) := by
  exact claim_C3 (zerosArr 2) 2 svdOkOf rfl

/-- C6: in a RANSAC iteration whose sampled fit succeeded, (i) a pose
index is in the inlier list iff it is in range and the Euclidean
distance from the pose applied to the candidate offset to the
candidate pivot is strictly below the error threshold; (ii) if the
inlier fraction does not exceed the consensus threshold or the inlier
count does not strictly exceed the best count (in particular on ties),
the state is kept unchanged; (iii) if both strict comparisons hold,
the recorded best is an AOS refit on exactly the inlier subset, with
the best count set to the inlier count. -/
theorem claim_C6 (a : NDArray) (n : ℕ) (tE cT : ℚ) (early : Bool)
    (svdOf : NDArray → SVD) (draws : ℕ → List ℕ) (i fuel : ℕ) (highest : ℤ)
    (best : Option CalibrationResult) (model : CalibrationResult)
    (hsh : a.shape = [n, 4, 4]) (hn : 3 ≤ n)
    (hfit : pivot_calibration_core (a.select (draws i)) svdOf = .ok model) :
    (∀ mc, mc ∈ (List.range n).filter (inlierTest a tE model) ↔
      mc < n ∧
        Real.sqrt ((poseDistSq a mc model : ℚ) : ℝ) < ((tE : ℚ) : ℝ)) ∧
    (¬ ((((List.range n).filter (inlierTest a tE model)).length : ℚ) /
          (n : ℚ) > cT ∧
        (((List.range n).filter (inlierTest a tE model)).length : ℤ) >
          highest) →
      ransacLoop a tE cT early svdOf draws i (fuel + 1) highest best =
        (if (((List.range n).filter (inlierTest a tE model)).length : ℚ) /
              (n : ℚ) > cT ∧ early = true then .ok best
         else ransacLoop a tE cT early svdOf draws (i + 1) fuel highest
           best)) ∧
    (((((List.range n).filter (inlierTest a tE model)).length : ℚ) /
          (n : ℚ) > cT ∧
        (((List.range n).filter (inlierTest a tE model)).length : ℤ) >
          highest) →
      ransacLoop a tE cT early svdOf draws i (fuel + 1) highest best =
        (match pivot_calibration_core
            (a.select ((List.range n).filter (inlierTest a tE model)))
            svdOf with
         | .error e => .error e
         | .ok refit =>
           if (((List.range n).filter (inlierTest a tE model)).length : ℚ) /
                (n : ℚ) > cT ∧ early = true then .ok (some refit)
           else ransacLoop a tE cT early svdOf draws (i + 1) fuel
             (((List.range n).filter (inlierTest a tE model)).length : ℤ)
             (some refit))) := by
  have hhead : a.shape.headD 0 = n := by rw [hsh]; rfl
  refine ⟨?_, ?_, ?_⟩
  · intro mc
    simp only [List.mem_filter, List.mem_range, inlierTest,
      decide_eq_true_eq]
  · intro hno
    simp only [ransacLoop, hhead, hfit]
    rw [if_neg (by omega), if_neg hno]
  · intro hyes
    simp only [ransacLoop, hhead, hfit]
    rw [if_neg (by omega), if_pos hyes]

/-- C6, witness: one iteration on three zero poses under the
well-conditioned oracle; the fitted model places every pose strictly
within threshold 4 of the candidate pivot. -/
theorem claim_C6_witness :
    (∀ mc, mc ∈ (List.range 3).filter (inlierTest (zerosArr 3) 4 fitModelW) ↔
      mc < 3 ∧
        Real.sqrt ((poseDistSq (zerosArr 3) mc fitModelW : ℚ) : ℝ) <
          ((4 : ℚ) : ℝ)) ∧
    (¬ ((((List.range 3).filter (inlierTest (zerosArr 3) 4
            fitModelW)).length : ℚ) / (3 : ℚ) > (1 / 4 : ℚ) ∧
        (((List.range 3).filter (inlierTest (zerosArr 3) 4
            fitModelW)).length : ℤ) > -1) →
      ransacLoop (zerosArr 3) 4 (1 / 4) false svdOkOf drawsW 0 (0 + 1) (-1)
          none =
        (if (((List.range 3).filter (inlierTest (zerosArr 3) 4
              fitModelW)).length : ℚ) / (3 : ℚ) > (1 / 4 : ℚ) ∧
            false = true then .ok none
         else ransacLoop (zerosArr 3) 4 (1 / 4) false svdOkOf drawsW (0 + 1)
           0 (-1) none)) ∧
    (((((List.range 3).filter (inlierTest (zerosArr 3) 4
            fitModelW)).length : ℚ) / (3 : ℚ) > (1 / 4 : ℚ) ∧
        (((List.range 3).filter (inlierTest (zerosArr 3) 4
            fitModelW)).length : ℤ) > -1) →
      ransacLoop (zerosArr 3) 4 (1 / 4) false svdOkOf drawsW 0 (0 + 1) (-1)
          none =
        (match pivot_calibration_core
            ((zerosArr 3).select ((List.range 3).filter
              (inlierTest (zerosArr 3) 4 fitModelW))) svdOkOf with
         | .error e => .error e
         | .ok refit =>
           if (((List.range 3).filter (inlierTest (zerosArr 3) 4
                fitModelW)).length : ℚ) / (3 : ℚ) > (1 / 4 : ℚ) ∧
               false = true then .ok (some refit)
           else ransacLoop (zerosArr 3) 4 (1 / 4) false svdOkOf drawsW
             (0 + 1) 0
             (((List.range 3).filter (inlierTest (zerosArr 3) 4
                fitModelW)).length : ℤ)
             (some refit))) := by
  exact claim_C6 (zerosArr 3) 3 4 (1 / 4) false svdOkOf drawsW 0 0 (-1) none
    fitModelW rfl (by decide) (by with_unfolding_all rfl)

/-- C7: (i) when the iteration budget is exhausted, a recorded best
model is returned and an empty record fails with the no-consensus
error; (ii) with valid parameters and early exit off, a run fails with
the no-consensus error iff no iteration within the budget is
consensus-satisfying; (iii) with early exit on, an iteration whose fit
succeeds with inlier fraction strictly above the consensus threshold
returns immediately — the current best (refit on the inliers if the
count also beats the best count, the previous best otherwise) — with a
result independent of the remaining fuel. -/
theorem claim_C7 (a : NDArray) (n : ℕ) (tE cT : ℚ) (svdOf : NDArray → SVD)
    (draws : ℕ → List ℕ) (hsh : a.shape = [n, 4, 4]) (hn : 3 ≤ n) :
    (∀ (i : ℕ) (highest : ℤ) (b : CalibrationResult) (early : Bool),
      ransacLoop a tE cT early svdOf draws i 0 highest (some b) =
        .ok (some b) ∧
      ransacLoop a tE cT early svdOf draws i 0 highest none =
        .error .noConsensus) ∧
    (∀ ni : ℤ, ¬ ni < 1 → ¬ tE < 0 → ¬ (cT < 0 ∨ cT > 1) →
      (pivot_calibration_with_ransac a ni tE cT false svdOf draws =
          .error .noConsensus ↔
        ∀ j, j < ni.toNat → ¬ iterConsensus a n tE cT svdOf draws j)) ∧
    (∀ (i fuel : ℕ) (highest : ℤ) (best : Option CalibrationResult)
        (model : CalibrationResult),
      pivot_calibration_core (a.select (draws i)) svdOf = .ok model →
      (((List.range n).filter (inlierTest a tE model)).length : ℚ) /
        (n : ℚ) > cT →
      ransacLoop a tE cT true svdOf draws i (fuel + 1) highest best =
        (if (((List.range n).filter (inlierTest a tE model)).length : ℤ) >
            highest then
          (match pivot_calibration_core
              (a.select ((List.range n).filter (inlierTest a tE model)))
              svdOf with
           | .error e => .error e
           | .ok refit => .ok (some refit))
         else .ok best)) := by
  have hhead : a.shape.headD 0 = n := by rw [hsh]; rfl
  refine ⟨fun i highest b early => ⟨rfl, rfl⟩, ?_, ?_⟩
  · intro ni h1 h2 h3
    unfold pivot_calibration_with_ransac
    rw [if_neg h1, if_neg h2, if_neg h3]
    constructor
    · intro hnc j hj hcons
      exact ransacLoop_not_noConsensus_of_consensus a n tE cT false svdOf
        draws hsh hn ni.toNat 0 (-1) none (fun _ => by omega)
        ⟨j, by omega, by omega, hcons⟩ hnc
    · intro hall
      exact ransacLoop_noConsensus a n tE cT false svdOf draws hsh hn
        ni.toNat 0 (-1) fun j hj1 hj2 => hall j (by omega)
  · intro i fuel highest best model hfit hpct
    simp only [ransacLoop, hhead, hfit]
    rw [if_neg (by omega)]
    by_cases hgt :
        (((List.range n).filter (inlierTest a tE model)).length : ℤ) >
          highest
    · rw [if_pos ⟨hpct, hgt⟩, if_pos hgt]
      cases hrefit : pivot_calibration_core
          (a.select ((List.range n).filter (inlierTest a tE model)))
          svdOf with
      | error e => rfl
      | ok b2 => dsimp only; rw [if_pos ⟨hpct, trivial⟩]
    · rw [if_neg fun hand => hgt hand.2, if_neg hgt, if_pos ⟨hpct, trivial⟩]

/-- C7, witness: the three parts at three zero poses, threshold 4 and
consensus 1/4 under the well-conditioned oracle. -/
theorem claim_C7_witness :
    (ransacLoop (zerosArr 3) 4 (1 / 4) false svdOkOf drawsW 0 0 5
        (some fitModelW) = .ok (some fitModelW) ∧
      ransacLoop (zerosArr 3) 4 (1 / 4) false svdOkOf drawsW 0 0 5 none =
        .error .noConsensus) ∧
    (pivot_calibration_with_ransac (zerosArr 3) 1 4 (1 / 4) false svdOkOf
        drawsW = .error .noConsensus ↔
      ∀ j, j < (1 : ℤ).toNat →
        ¬ iterConsensus (zerosArr 3) 3 4 (1 / 4) svdOkOf drawsW j) ∧
    (ransacLoop (zerosArr 3) 4 (1 / 4) true svdOkOf drawsW 0 (0 + 1) (-1)
        none =
      (if (((List.range 3).filter (inlierTest (zerosArr 3) 4
            fitModelW)).length : ℤ) > -1 then
        (match pivot_calibration_core
            ((zerosArr 3).select ((List.range 3).filter
              (inlierTest (zerosArr 3) 4 fitModelW))) svdOkOf with
         | .error e => .error e
         | .ok refit => .ok (some refit))
       else .ok none)) := by
  have h := claim_C7 (zerosArr 3) 3 4 (1 / 4) svdOkOf drawsW rfl (by decide)
  exact ⟨h.1 0 5 fitModelW false,
    h.2.1 1 (by decide) (by decide) (by with_unfolding_all decide),
    h.2.2 0 0 (-1) none fitModelW (by with_unfolding_all rfl)
      (by with_unfolding_all decide)⟩

/-- C9: (i) a degenerate-input failure of the AOS fit on a sampled
subset is caught and the loop continues to the next iteration with the
state unchanged; (ii) a degenerate-input failure of the refit on an
accepted model's inlier subset propagates to the caller; (iii) a
direct AOS call through the dispatcher propagates the degenerate-input
error whenever the rank is below 6. -/
theorem claim_C9 (a : NDArray) (n : ℕ) (tE cT : ℚ) (early : Bool)
    (svdOf : NDArray → SVD) (draws : ℕ → List ℕ)
    (hsh : a.shape = [n, 4, 4]) (hn : 3 ≤ n) :
    (∀ (i fuel : ℕ) (highest : ℤ) (best : Option CalibrationResult),
      pivot_calibration_core (a.select (draws i)) svdOf =
        .error .degenerate →
      ransacLoop a tE cT early svdOf draws i (fuel + 1) highest best =
        ransacLoop a tE cT early svdOf draws (i + 1) fuel highest best) ∧
    (∀ (i fuel : ℕ) (highest : ℤ) (best : Option CalibrationResult)
        (model : CalibrationResult),
      pivot_calibration_core (a.select (draws i)) svdOf = .ok model →
      (((List.range n).filter (inlierTest a tE model)).length : ℚ) /
        (n : ℚ) > cT →
      (((List.range n).filter (inlierTest a tE model)).length : ℤ) >
        highest →
      pivot_calibration_core
          (a.select ((List.range n).filter (inlierTest a tE model)))
          svdOf = .error .degenerate →
      ransacLoop a tE cT early svdOf draws i (fuel + 1) highest best =
        .error .degenerate) ∧
    (∀ (svdOf2 : NDArray → SVD) (draws2 : ℕ → List ℕ),
      (replace_small_values (svdOf2 (a_values a)).s (1 / 100) 0).2 < 6 →
      pivot_calibration a none svdOf2 draws2 = .error .degenerate) := by
  have hhead : a.shape.headD 0 = n := by rw [hsh]; rfl
  refine ⟨?_, ?_, ?_⟩
  · intro i fuel highest best hfit
    simp only [ransacLoop, hhead, hfit]
    rw [if_neg (by omega), if_pos (by rfl)]
  · intro i fuel highest best model hfit hpct hcnt hrefit
    simp only [ransacLoop, hhead, hfit]
    rw [if_neg (by omega), if_pos ⟨hpct, hcnt⟩]
    simp only [hrefit]
  · intro svdOf2 draws2 hrank
    rw [pivot_calibration_none_eq,
      pivot_calibration_core_eq_aos a svdOf2 (by rw [hsh]; rfl)
        (by rw [hsh]; rfl),
      (pivot_calibration_aos_eq_error_iff a svdOf2).mpr hrank]
    rfl

/-- C9, witness: part (i) with the collapsed oracle, part (ii) with
the split oracle (sample fit succeeds, empty-inlier refit collapses),
part (iii) with the collapsed oracle through the dispatcher. -/
theorem claim_C9_witness :
    (ransacLoop (zerosArr 3) 4 (1 / 4) false svdBadOf drawsW 0 (0 + 1) (-1)
        none =
      ransacLoop (zerosArr 3) 4 (1 / 4) false svdBadOf drawsW (0 + 1) 0 (-1)
        none) ∧
    (ransacLoop (zerosArr 3) 0 (-1) false svdSplitOf drawsW 0 (0 + 1) (-1)
        none = .error .degenerate) ∧
    (pivot_calibration (zerosArr 3) none svdBadOf drawsW =
      .error .degenerate) := by
  refine ⟨?_, ?_, ?_⟩
  · exact (claim_C9 (zerosArr 3) 3 4 (1 / 4) false svdBadOf drawsW rfl
      (by decide)).1 0 0 (-1) none (by with_unfolding_all rfl)
  · exact (claim_C9 (zerosArr 3) 3 0 (-1) false svdSplitOf drawsW rfl
      (by decide)).2.1 0 0 (-1) none fitModelSplitW
      (by with_unfolding_all rfl) (by with_unfolding_all decide)
      (by with_unfolding_all decide) (by with_unfolding_all rfl)
  · exact (claim_C9 (zerosArr 3) 3 4 (1 / 4) false svdBadOf drawsW rfl
      (by decide)).2.2 svdBadOf drawsW (by with_unfolding_all decide)

/-- C10, witness: two zero poses with default parameters. -/
theorem claim_C10_witness :
    pivot_calibration_with_ransac ⟨[2, 4, 4], fun _ => 0⟩ 10 4 (1 / 4) false
      svdOkOf drawsW = .error .sampleTooLarge := by
  exact (claim_C10 2 (fun _ => 0) 10 4 (1 / 4) false svdOkOf drawsW
    (by decide) (by decide) (by decide) (by with_unfolding_all decide)).1

end PivotCalib
